import Mathlib

/-!
Verification of the MD2 hash core (`md2` crate, `src/lib.rs`).

The development shallowly embeds the Rust source: bytes are `Nat` values,
fixed-size byte arrays are `List Nat`, the imperative loops of
`Md2Core::compress` become folds over index ranges, and the fallible
`deserialize` returns `Except`. Definitions whose doc comment starts with
`Modelled from the spec:` embed parts that the crate delegates to code not
present here (the `consts` module holding the substitution table, and the
generic byte-buffering / serialized-state machinery), following the
specification's description of them.
-/

/-- Modelled from the spec: the MD2 substitution table `consts::S` (module
`consts` is declared by the crate but its source file is absent). The spec
requires a fixed 256-entry permutation of the byte values 0–255, derived from
the digits of π, matching the standardized MD2 table bit-for-bit; these are
the 256 entries of that standardized table. -/
def S : List Nat :=
  [41, 46, 67, 201, 162, 216, 124, 1, 61, 54, 84, 161, 236, 240, 6,
   19, 98, 167, 5, 243, 192, 199, 115, 140, 152, 147, 43, 217, 188,
   76, 130, 202, 30, 155, 87, 60, 253, 212, 224, 22, 103, 66, 111, 24,
   138, 23, 229, 18, 190, 78, 196, 214, 218, 158, 222, 73, 160, 251,
   245, 142, 187, 47, 238, 122, 169, 104, 121, 145, 21, 178, 7, 63,
   148, 194, 16, 137, 11, 34, 95, 33, 128, 127, 93, 154, 90, 144, 50,
   39, 53, 62, 204, 231, 191, 247, 151, 3, 255, 25, 48, 179, 72, 165,
   181, 209, 215, 94, 146, 42, 172, 86, 170, 198, 79, 184, 56, 210,
   150, 164, 125, 182, 118, 252, 107, 226, 156, 116, 4, 241, 69, 157,
   112, 89, 100, 113, 135, 32, 134, 91, 207, 101, 230, 45, 168, 2, 27,
   96, 37, 173, 174, 176, 185, 246, 28, 70, 97, 105, 52, 64, 126, 15,
   85, 71, 163, 35, 221, 81, 175, 58, 195, 92, 249, 206, 186, 197,
   234, 38, 44, 83, 13, 110, 133, 40, 132, 9, 211, 223, 205, 244, 65,
   129, 77, 82, 106, 220, 55, 200, 108, 193, 171, 250, 36, 225, 123,
   8, 12, 189, 177, 74, 120, 136, 149, 139, 227, 99, 232, 109, 233,
   203, 213, 254, 59, 0, 29, 57, 242, 239, 183, 14, 102, 88, 208, 228,
   166, 119, 114, 248, 235, 117, 75, 10, 49, 68, 80, 180, 143, 237,
   31, 26, 219, 153, 141, 51, 159, 17, 131, 20]

/-- `STATE_LEN` from the source: length of the working buffer `x`. -/
def STATE_LEN : Nat := 48

/-- The core MD2 hasher state `Md2Core`: the 48-byte working buffer `x` and
the 16-byte running checksum. -/
structure Md2Core where
  x : List Nat
  checksum : List Nat
deriving DecidableEq

/-- One iteration `j` of the first loop of `Md2Core::compress`:
`self.x[16 + j] = block[j]; self.x[32 + j] = self.x[16 + j] ^ self.x[j]`. -/
def copyStep (b : List Nat) (x : List Nat) (j : Nat) : List Nat :=
  let x1 := x.set (16 + j) (b.getD j 0)
  x1.set (32 + j) (x1.getD (16 + j) 0 ^^^ x1.getD j 0)

/-- The first loop of `Md2Core::compress` (`for j in 0..16`). -/
def copyBlock (x b : List Nat) : List Nat :=
  (List.range 16).foldl (copyStep b) x

/-- One iteration `k` of the inner diffusion loop of `Md2Core::compress`:
`self.x[k] ^= consts::S[t as usize]; t = self.x[k]`, acting on the pair
`(x, t)`. -/
def diffuseStep (p : List Nat × Nat) (k : Nat) : List Nat × Nat :=
  let v := p.1.getD k 0 ^^^ S.getD p.2 0
  (p.1.set k v, v)

/-- One iteration `j` of the outer diffusion loop of `Md2Core::compress`:
the inner loop `for k in 0..STATE_LEN` followed by `t = t.wrapping_add(j)`. -/
def roundStep (p : List Nat × Nat) (j : Nat) : List Nat × Nat :=
  let q := (List.range STATE_LEN).foldl diffuseStep p
  (q.1, (q.2 + j) % 256)

/-- The 18-round diffusion loop of `Md2Core::compress`
(`let mut t = 0u8; for j in 0..18u8 { ... }`). -/
def diffuse (x : List Nat) : List Nat :=
  ((List.range 18).foldl roundStep (x, 0)).1

/-- One iteration `j` of the checksum loop of `Md2Core::compress`:
`self.checksum[j] ^= consts::S[(block[j] ^ l) as usize]; l = self.checksum[j]`,
acting on the pair `(checksum, l)`. -/
def checksumStep (b : List Nat) (p : List Nat × Nat) (j : Nat) : List Nat × Nat :=
  let v := p.1.getD j 0 ^^^ S.getD (b.getD j 0 ^^^ p.2) 0
  (p.1.set j v, v)

/-- The checksum-update loop of `Md2Core::compress`
(`let mut l = self.checksum[15]; for j in 0..16 { ... }`). -/
def checksumBlock (cs b : List Nat) : List Nat :=
  ((List.range 16).foldl (checksumStep b) (cs, cs.getD 15 0)).1

/-- `Md2Core::compress`: load the block into the working buffer, run the 18
diffusion rounds, then update the running checksum from the raw block. -/
def Md2Core.compress (st : Md2Core) (b : List Nat) : Md2Core :=
  ⟨diffuse (copyBlock st.x b), checksumBlock st.checksum b⟩

/-- `Default for Md2Core`: zeroed working buffer and checksum. -/
def md2_default : Md2Core :=
  ⟨List.replicate STATE_LEN 0, List.replicate 16 0⟩

/-- `Reset::reset`: `*self = Default::default()`. -/
def Md2Core.reset (_ : Md2Core) : Md2Core := md2_default

/-- `UpdateCore::update_blocks`: compress each block in order. -/
def update_blocks (st : Md2Core) (blocks : List (List Nat)) : Md2Core :=
  blocks.foldl Md2Core.compress st

/-- `FixedOutputCore::finalize_fixed_core`: pad the buffered tail
(`pad_with_zeros`, then overwrite `block[pos..]` with `rem = 16 - pos`),
compress the padded block, compress the checksum as a block, and emit
`x[0..16]`. -/
def finalize_fixed_core (st : Md2Core) (rest : List Nat) : List Nat :=
  let pos := rest.length
  let rem := 16 - pos
  let padded := rest ++ List.replicate (16 - pos) 0
  let block := padded.take pos ++ List.replicate (padded.length - pos) rem
  let st1 := st.compress block
  let st2 := st1.compress st1.checksum
  st2.x.take 16

/-- Fuel-indexed helper for `splitBlocks`; the fuel only bounds the
recursion depth and is irrelevant once it is at least the message length. -/
def splitBlocksAux : Nat → List Nat → List (List Nat) × List Nat
  | 0, msg => ([], msg)
  | fuel + 1, msg =>
    if msg.length < 16 then ([], msg)
    else
      let p := splitBlocksAux fuel (msg.drop 16)
      (msg.take 16 :: p.1, p.2)

/-- Modelled from the spec: the eager block-buffering adapter (the
out-of-scope `block_buffer`/`CoreWrapper` collaborator) splits accumulated
bytes into full 16-byte blocks, handing each full block to the core as soon
as it is complete and keeping the remainder (0–15 bytes). -/
def splitBlocks (msg : List Nat) : List (List Nat) × List Nat :=
  splitBlocksAux msg.length msg

/-- Run a hash to completion from a given core state: feed the full blocks of
`msg` through `update_blocks`, then finalize on the remainder. -/
def md2From (st : Md2Core) (msg : List Nat) : List Nat :=
  finalize_fixed_core (update_blocks st (splitBlocks msg).1) (splitBlocks msg).2

/-- The full MD2 digest of a byte sequence, from a fresh instance. -/
def md2 (msg : List Nat) : List Nat := md2From md2_default msg

/-- The single error kind of state deserialization
(`crypto_common::DeserializeStateError`). -/
inductive DeserializeStateError where
  | invalidLength
deriving DecidableEq

/-- `SerializableState::serialize`: the 48-byte working buffer concatenated
with the 16-byte checksum, in that order. -/
def serialize (st : Md2Core) : List Nat := st.x ++ st.checksum

/-- Modelled from the spec: `SerializableState::deserialize` viewed at the
byte-sequence boundary. In the source the 64-byte length is enforced by the
fixed-size `SerializedState` type, the length check and
`DeserializeStateError` living in the external `crypto_common` machinery; per
the spec, a sequence of any other length fails with the designated error, and
a 64-byte sequence is split into `x` (first 48 bytes) and `checksum` (last 16
bytes) with no further validation. -/
def deserialize (b : List Nat) : Except DeserializeStateError Md2Core :=
  if b.length = 64 then Except.ok ⟨b.take 48, b.drop 48⟩
  else Except.error DeserializeStateError.invalidLength

/-- A hasher together with its buffering adapter: the core state plus the
0–15 buffered leftover bytes. -/
structure Md2Buffered where
  core : Md2Core
  buf : List Nat
deriving DecidableEq

/-- A freshly constructed buffered hasher. -/
def md2_start : Md2Buffered := ⟨md2_default, []⟩

/-- Modelled from the spec: one `update` call through the buffering adapter;
the buffered bytes and the new data are cut into full blocks, which are fed
to `update_blocks`, and the remainder is kept in the buffer. -/
def Md2Buffered.update (st : Md2Buffered) (data : List Nat) : Md2Buffered :=
  let p := splitBlocks (st.buf ++ data)
  ⟨update_blocks st.core p.1, p.2⟩

/-- Finalizing a buffered hasher: `finalize_fixed_core` on the buffered
leftover bytes. -/
def Md2Buffered.finalize (st : Md2Buffered) : List Nat :=
  finalize_fixed_core st.core st.buf

/-- The buffered hasher obtained after absorbing exactly the bytes of `m`. -/
def absorbed (m : List Nat) : Md2Buffered :=
  ⟨update_blocks md2_default (splitBlocks m).1, (splitBlocks m).2⟩

/-- Spec-side rendering of the load phase of the diffusion (claim C2): byte
`i < 16` of the working buffer is unchanged, bytes 16..31 receive the block,
and byte `32 + j` receives `block[j] XOR buffer[j]`. -/
def specLoad (x b : List Nat) : List Nat :=
  (List.range 48).map fun i =>
    if i < 16 then x.getD i 0
    else if i < 32 then b.getD (i - 16) 0
    else b.getD (i - 32) 0 ^^^ x.getD (i - 32) 0

/-- Spec-side rendering of one diffusion round's positions (claim C2):
starting at position `k` with `fuel` positions left, set
`buffer[k] = buffer[k] XOR S[t]` then `t = buffer[k]`. -/
def specPass : List Nat → Nat → Nat → Nat → List Nat × Nat
  | x, t, _, 0 => (x, t)
  | x, t, k, fuel + 1 =>
    let v := x.getD k 0 ^^^ S.getD t 0
    specPass (x.set k v) v (k + 1) fuel

/-- Spec-side rendering of the 18 diffusion rounds (claim C2): each round `j`
runs over the 48 positions and then sets `t = (t + j) mod 256`. -/
def specRounds : List Nat → Nat → Nat → Nat → List Nat
  | x, _, _, 0 => x
  | x, t, j, fuel + 1 =>
    let p := specPass x t 0 48
    specRounds p.1 ((p.2 + j) % 256) (j + 1) fuel

/-- Spec-side rendering of the whole diffusion phase of `compress` (claim
C2): load the block, then run 18 rounds with `t` initially 0. -/
def specDiffusion (x b : List Nat) : List Nat :=
  specRounds (specLoad x b) 0 0 18

/-- Spec-side rendering of the checksum phase's loop (claim C3): starting at
index `j` with carry `l`, set `checksum[j] = checksum[j] XOR S[block[j] XOR l]`
then `l = checksum[j]`. -/
def specChecksumGo : List Nat → List Nat → Nat → Nat → Nat → List Nat
  | _, cs, _, _, 0 => cs
  | b, cs, l, j, fuel + 1 =>
    let v := cs.getD j 0 ^^^ S.getD (b.getD j 0 ^^^ l) 0
    specChecksumGo b (cs.set j v) v (j + 1) fuel

/-- Spec-side rendering of the whole checksum phase of `compress` (claim C3):
`l` starts at `checksum[15]` and the 16 positions are updated in order from
the raw block bytes. -/
def specChecksumPhase (cs b : List Nat) : List Nat :=
  specChecksumGo b cs (cs.getD 15 0) 0 16

/-- Spec-side rendering of the final padded block (claim C4): the remaining
input followed by `rem` copies of the byte value `rem`. -/
def specFinalBlock (rest : List Nat) : List Nat :=
  rest ++ List.replicate (16 - rest.length) (16 - rest.length)

/-- A fold of a length-preserving list update preserves the length. -/
theorem foldl_length_eq {f : List Nat → Nat → List Nat}
    (hf : ∀ x j, (f x j).length = x.length) :
    ∀ (l : List Nat) (x : List Nat), (l.foldl f x).length = x.length := by
  intro l
  induction l with
  | nil => intro x; rfl
  | cons a l ih => intro x; rw [List.foldl_cons, ih, hf]

/-- A fold of a pair-valued step whose list component is length-preserving
preserves the length of the list component. -/
theorem foldl_pair_length_eq {f : List Nat × Nat → Nat → List Nat × Nat}
    (hf : ∀ p j, ((f p j).1).length = p.1.length) :
    ∀ (l : List Nat) (p : List Nat × Nat), ((l.foldl f p).1).length = p.1.length := by
  intro l
  induction l with
  | nil => intro p; rfl
  | cons a l ih => intro p; rw [List.foldl_cons, ih, hf]

theorem copyStep_length (b x : List Nat) (j : Nat) :
    (copyStep b x j).length = x.length := by
  simp [copyStep]

theorem copyBlock_length (x b : List Nat) : (copyBlock x b).length = x.length :=
  foldl_length_eq (copyStep_length b) _ x

theorem diffuseStep_length (p : List Nat × Nat) (k : Nat) :
    ((diffuseStep p k).1).length = p.1.length := by
  simp [diffuseStep]

theorem roundStep_length (p : List Nat × Nat) (j : Nat) :
    ((roundStep p j).1).length = p.1.length := by
  simp only [roundStep]
  exact foldl_pair_length_eq diffuseStep_length _ p

theorem diffuse_length (x : List Nat) : (diffuse x).length = x.length :=
  foldl_pair_length_eq roundStep_length _ (x, 0)

theorem checksumStep_length (b : List Nat) (p : List Nat × Nat) (j : Nat) :
    ((checksumStep b p j).1).length = p.1.length := by
  simp [checksumStep]

theorem checksumBlock_length (cs b : List Nat) :
    (checksumBlock cs b).length = cs.length :=
  foldl_pair_length_eq (checksumStep_length b) _ (cs, cs.getD 15 0)

theorem compress_x_length (st : Md2Core) (b : List Nat) :
    (st.compress b).x.length = st.x.length := by
  simp only [Md2Core.compress, diffuse_length, copyBlock_length]

theorem compress_checksum_length (st : Md2Core) (b : List Nat) :
    (st.compress b).checksum.length = st.checksum.length :=
  checksumBlock_length st.checksum b

theorem update_blocks_cons (st : Md2Core) (c : List Nat) (cs : List (List Nat)) :
    update_blocks st (c :: cs) = update_blocks (st.compress c) cs := by
  simp only [update_blocks, List.foldl_cons]

theorem update_blocks_x_length (blocks : List (List Nat)) :
    ∀ st : Md2Core, (update_blocks st blocks).x.length = st.x.length := by
  induction blocks with
  | nil => intro st; rfl
  | cons c cs ih =>
    intro st
    rw [update_blocks_cons, ih, compress_x_length]

theorem update_blocks_checksum_length (blocks : List (List Nat)) :
    ∀ st : Md2Core, (update_blocks st blocks).checksum.length = st.checksum.length := by
  induction blocks with
  | nil => intro st; rfl
  | cons c cs ih =>
    intro st
    rw [update_blocks_cons, ih, compress_checksum_length]

/-- The inner diffusion fold over positions `k, k+1, …` is the spec-side
position pass. -/
theorem foldl_diffuseStep_eq_specPass :
    ∀ (fuel k : Nat) (p : List Nat × Nat),
      (List.range' k fuel).foldl diffuseStep p = specPass p.1 p.2 k fuel := by
  intro fuel
  induction fuel with
  | zero => intro k p; rfl
  | succ fuel ih =>
    intro k p
    rw [List.range'_succ, List.foldl_cons, ih]
    rfl

/-- One outer-loop iteration, rephrased through the spec-side position
pass. -/
theorem roundStep_eq_specPass (p : List Nat × Nat) (j : Nat) :
    roundStep p j
      = ((specPass p.1 p.2 0 48).1, ((specPass p.1 p.2 0 48).2 + j) % 256) := by
  have h48 : STATE_LEN = 48 := rfl
  simp only [roundStep, h48, List.range_eq_range', foldl_diffuseStep_eq_specPass]

/-- The outer diffusion fold over rounds `j, j+1, …` is the spec-side rounds
recursion. -/
theorem foldl_roundStep_eq_specRounds :
    ∀ (fuel j : Nat) (p : List Nat × Nat),
      ((List.range' j fuel).foldl roundStep p).1 = specRounds p.1 p.2 j fuel := by
  intro fuel
  induction fuel with
  | zero => intro j p; rfl
  | succ fuel ih =>
    intro j p
    rw [List.range'_succ, List.foldl_cons, ih, roundStep_eq_specPass]
    rw [specRounds]

/-- The checksum fold over indices `j, j+1, …` is the spec-side checksum
recursion. -/
theorem foldl_checksumStep_eq_specChecksumGo (b : List Nat) :
    ∀ (fuel j : Nat) (p : List Nat × Nat),
      ((List.range' j fuel).foldl (checksumStep b) p).1 = specChecksumGo b p.1 p.2 j fuel := by
  intro fuel
  induction fuel with
  | zero => intro j p; rfl
  | succ fuel ih =>
    intro j p
    rw [List.range'_succ, List.foldl_cons, ih]
    rfl

/-- C3: for every state and every 16-byte block, the checksum phase of
`compress` initializes `l` to `checksum[15]` and, for each `j` in `0..15` in
order, sets `checksum[j] = checksum[j] XOR S[block[j] XOR l]` and then
`l = checksum[j]`, where `block[j]` is the raw input block byte. -/
theorem md2_C3 (st : Md2Core) (b : List Nat) :
    (st.compress b).checksum = specChecksumPhase st.checksum b := by
  show checksumBlock st.checksum b = _
  rw [checksumBlock, List.range_eq_range' 16, foldl_checksumStep_eq_specChecksumGo]
  rfl

/-- Pointwise description of the first `n` iterations of the load loop of
`compress`: positions `16..16+n-1` hold the block bytes, positions
`32..32+n-1` hold block XOR buffer, everything else is untouched. -/
theorem copy_foldl_getElem? (b x : List Nat) (hx : x.length = 48) :
    ∀ n, n ≤ 16 → ∀ i,
      ((List.range n).foldl (copyStep b) x)[i]? =
        if 16 ≤ i ∧ i < 16 + n then some (b.getD (i - 16) 0)
        else if 32 ≤ i ∧ i < 32 + n then some (b.getD (i - 32) 0 ^^^ x.getD (i - 32) 0)
        else x[i]? := by
  intro n
  induction n with
  | zero =>
    intro _ i
    rw [List.range_zero, List.foldl_nil, if_neg (by omega), if_neg (by omega)]
  | succ n ih =>
    intro hn i
    have hn' : n ≤ 16 := by omega
    rw [List.range_succ, List.foldl_append, List.foldl_cons, List.foldl_nil]
    have hlen : ((List.range n).foldl (copyStep b) x).length = 48 := by
      rw [foldl_length_eq (copyStep_length b), hx]
    rw [copyStep]
    have hread16 :
        (((List.range n).foldl (copyStep b) x).set (16 + n) (b.getD n 0)).getD (16 + n) 0
          = b.getD n 0 := by
      rw [List.getD_eq_getElem?_getD,
        List.getElem?_set_eq_of_lt _ (by rw [hlen]; omega)]
      rfl
    have hreadn :
        (((List.range n).foldl (copyStep b) x).set (16 + n) (b.getD n 0)).getD n 0
          = x.getD n 0 := by
      rw [List.getD_eq_getElem?_getD, List.getElem?_set_ne (by omega)]
      have h := ih hn' n
      rw [if_neg (by omega), if_neg (by omega)] at h
      rw [h, ← List.getD_eq_getElem?_getD]
    simp only [hread16, hreadn]
    by_cases hi32 : i = 32 + n
    · subst hi32
      rw [List.getElem?_set_eq_of_lt _ (by rw [List.length_set, hlen]; omega)]
      rw [if_neg (by omega), if_pos (by omega)]
      have h32 : 32 + n - 32 = n := by omega
      rw [h32]
    · by_cases hi16 : i = 16 + n
      · subst hi16
        rw [List.getElem?_set_ne (by omega),
          List.getElem?_set_eq_of_lt _ (by rw [hlen]; omega)]
        rw [if_pos (by omega)]
        have h16 : 16 + n - 16 = n := by omega
        rw [h16]
      · rw [List.getElem?_set_ne (by omega), List.getElem?_set_ne (by omega), ih hn' i]
        split_ifs <;> first | rfl | omega

/-- The load loop of `compress` equals the spec-side load description. -/
theorem copyBlock_eq_specLoad (x b : List Nat) (hx : x.length = 48) :
    copyBlock x b = specLoad x b := by
  apply List.ext_getElem?
  intro i
  by_cases hi : i < 48
  · rw [copyBlock, copy_foldl_getElem? b x hx 16 (by omega) i]
    rw [specLoad, List.getElem?_map, List.getElem?_range hi, Option.map_some']
    rcases Nat.lt_or_ge i 16 with h16 | h16
    · rw [if_neg (by omega), if_neg (by omega), if_pos h16]
      rw [List.getD_eq_getElem?_getD,
        List.getElem?_eq_getElem (show i < x.length by omega)]
      rfl
    · rcases Nat.lt_or_ge i 32 with h32 | h32
      · rw [if_pos (by omega), if_neg (by omega), if_pos h32]
      · rw [if_neg (by omega), if_pos (by omega), if_neg (by omega), if_neg (by omega)]
  · have h1 : (copyBlock x b).length = 48 := by rw [copyBlock_length, hx]
    have h2 : (specLoad x b).length = 48 := by
      rw [specLoad, List.length_map, List.length_range]
    rw [List.getElem?_eq_none (by omega), List.getElem?_eq_none (by omega)]

/-- C2: for every state and every 16-byte block, the diffusion phase of
`compress` first copies the block into bytes 16..31 of the working buffer and
sets byte `32 + j` to `block[j] XOR buffer[j]` for `j` in `0..15`, then runs
exactly 18 rounds with a running byte `t` initially 0, where round `j` sets
`buffer[k] = buffer[k] XOR S[t]` and `t = buffer[k]` for each `k` in `0..47`
and afterwards sets `t = (t + j) mod 256`. -/
theorem md2_C2 (st : Md2Core) (b : List Nat)
    (hx : st.x.length = 48) (hb : b.length = 16) :
    (st.compress b).x = specDiffusion st.x b := by
  have h := foldl_roundStep_eq_specRounds 18 0 (specLoad st.x b, 0)
  dsimp only at h
  simp only [Md2Core.compress]
  rw [copyBlock_eq_specLoad st.x b hx, diffuse, List.range_eq_range', h, specDiffusion]

/-- Witness for C2 at a concrete state and block. -/
theorem md2_C2_witness :
    (⟨List.range 48, List.replicate 16 0⟩ : Md2Core).x.length = 48
    ∧ (List.range 16).length = 16
    ∧ ((⟨List.range 48, List.replicate 16 0⟩ : Md2Core).compress (List.range 16)).x
        = specDiffusion (⟨List.range 48, List.replicate 16 0⟩ : Md2Core).x (List.range 16) :=
  ⟨by decide, by decide,
    md2_C2 ⟨List.range 48, List.replicate 16 0⟩ (List.range 16) (by decide) (by decide)⟩

set_option maxRecDepth 8000

/-- `splitBlocks` on a short (sub-block) message buffers it whole. -/
theorem splitBlocks_of_lt (m : List Nat) (h : m.length < 16) :
    splitBlocks m = ([], m) := by
  rw [splitBlocks]
  cases hn : m.length with
  | zero => rfl
  | succ k => rw [splitBlocksAux, if_pos h]

/-- Evaluation scaffold for sub-block messages: the digest is obtained by
compressing the padded block and then the resulting checksum, with the
intermediate states given as explicit lists. -/
theorem md2_short_eval (m B X1 Cs X2 : List Nat) (hm : m.length < 16)
    (hB : (m ++ List.replicate (16 - m.length) 0).take m.length
        ++ List.replicate ((m ++ List.replicate (16 - m.length) 0).length - m.length)
            (16 - m.length) = B)
    (h1 : md2_default.compress B = ⟨X1, Cs⟩)
    (h2 : ((⟨X1, Cs⟩ : Md2Core).compress Cs).x = X2) :
    md2 m = X2.take 16 := by
  rw [md2, md2From, splitBlocks_of_lt m hm]
  dsimp only [update_blocks, List.foldl_nil, finalize_fixed_core]
  rw [hB, h1]
  dsimp only
  rw [h2]

set_option maxHeartbeats 1000000 in
theorem md2_kat_empty :
    md2 [] = [0x83, 0x50, 0xe5, 0xa3, 0xe2, 0x4c, 0x15, 0x3d,
              0xf2, 0x27, 0x5c, 0x9f, 0x80, 0x69, 0x27, 0x73] := by
  have e1 : md2 [] =
      ([131, 80, 229, 163, 226, 76, 21, 61, 242, 39, 92, 159, 128, 105, 39, 115,
        190, 42, 242, 111, 163, 0, 31, 252, 99, 75, 79, 75, 86, 90, 126, 39,
        98, 58, 17, 233, 194, 10, 180, 34, 241, 145, 242, 157, 216, 242, 40, 157] :
        List Nat).take 16 :=
    md2_short_eval []
      [16, 16, 16, 16, 16, 16, 16, 16, 16, 16, 16, 16, 16, 16, 16, 16]
      [49, 193, 126, 94, 153, 77, 28, 112, 229, 114, 199, 141, 148, 248, 249, 154,
       124, 131, 235, 69, 244, 50, 230, 136, 110, 226, 88, 49, 37, 87, 191, 253,
       16, 91, 238, 221, 103, 159, 225, 219, 50, 114, 43, 26, 196, 119, 11, 70]
      [98, 56, 103, 182, 175, 82, 121, 94, 95, 33, 78, 151, 32, 190, 234, 141]
      [131, 80, 229, 163, 226, 76, 21, 61, 242, 39, 92, 159, 128, 105, 39, 115,
       190, 42, 242, 111, 163, 0, 31, 252, 99, 75, 79, 75, 86, 90, 126, 39,
       98, 58, 17, 233, 194, 10, 180, 34, 241, 145, 242, 157, 216, 242, 40, 157]
      (by decide) (by decide) (by decide) (by decide)
  rw [e1]
  decide

set_option maxHeartbeats 1000000 in
theorem md2_kat_abc :
    md2 [97, 98, 99]
      = [0xda, 0x85, 0x3b, 0x0d, 0x3f, 0x88, 0xd9, 0x9b,
         0x30, 0x28, 0x3a, 0x69, 0xe6, 0xde, 0xd6, 0xbb] := by
  have e2 : md2 [97, 98, 99] =
      ([218, 133, 59, 13, 63, 136, 217, 155, 48, 40, 58, 105, 230, 222, 214, 187,
        146, 101, 35, 195, 96, 219, 104, 177, 87, 203, 101, 99, 195, 113, 243, 157,
        6, 254, 254, 140, 111, 173, 229, 106, 248, 134, 93, 205, 242, 158, 219, 158] :
        List Nat).take 16 :=
    md2_short_eval [97, 98, 99]
      [97, 98, 99, 13, 13, 13, 13, 13, 13, 13, 13, 13, 13, 13, 13, 13]
      [19, 190, 165, 55, 71, 3, 189, 24, 26, 124, 157, 23, 41, 49, 0, 227,
       145, 38, 56, 62, 225, 27, 55, 32, 185, 156, 42, 33, 1, 54, 74, 232,
       76, 99, 202, 128, 142, 123, 216, 131, 97, 111, 91, 9, 52, 203, 137, 120]
      [25, 226, 157, 27, 115, 4, 54, 142, 89, 90, 39, 111, 48, 47, 87, 204]
      [218, 133, 59, 13, 63, 136, 217, 155, 48, 40, 58, 105, 230, 222, 214, 187,
       146, 101, 35, 195, 96, 219, 104, 177, 87, 203, 101, 99, 195, 113, 243, 157,
       6, 254, 254, 140, 111, 173, 229, 106, 248, 134, 93, 205, 242, 158, 219, 158]
      (by decide) (by decide) (by decide) (by decide)
  rw [e2]
  decide

set_option maxHeartbeats 1000000 in
theorem md2_kat_hello :
    md2 [104, 101, 108, 108, 111, 32, 119, 111, 114, 108, 100]
      = [0xd9, 0xcc, 0xe8, 0x82, 0xee, 0x69, 0x0a, 0x5c,
         0x1c, 0xe7, 0x0b, 0xef, 0xf3, 0xa7, 0x8c, 0x77] := by
  have e3 : md2 [104, 101, 108, 108, 111, 32, 119, 111, 114, 108, 100] =
      ([217, 204, 232, 130, 238, 105, 10, 92, 28, 231, 11, 239, 243, 167, 140, 119,
        203, 134, 150, 95, 100, 62, 6, 114, 91, 108, 175, 252, 0, 253, 103, 173,
        152, 112, 158, 135, 31, 233, 231, 104, 93, 240, 38, 90, 108, 79, 120, 188] :
        List Nat).take 16 :=
    md2_short_eval [104, 101, 108, 108, 111, 32, 119, 111, 114, 108, 100]
      [104, 101, 108, 108, 111, 32, 119, 111, 114, 108, 100, 5, 5, 5, 5, 5]
      [104, 108, 153, 210, 169, 235, 141, 85, 128, 1, 115, 40, 66, 17, 180, 72,
       124, 75, 187, 79, 35, 155, 113, 116, 20, 174, 94, 244, 153, 85, 128, 51,
       237, 113, 66, 54, 93, 219, 35, 209, 207, 10, 110, 163, 81, 134, 12, 57]
      [215, 13, 25, 164, 8, 103, 98, 240, 112, 188, 233, 235, 75, 95, 204, 225]
      [217, 204, 232, 130, 238, 105, 10, 92, 28, 231, 11, 239, 243, 167, 140, 119,
       203, 134, 150, 95, 100, 62, 6, 114, 91, 108, 175, 252, 0, 253, 103, 173,
       152, 112, 158, 135, 31, 233, 231, 104, 93, 240, 38, 90, 108, 79, 120, 188]
      (by decide) (by decide) (by decide) (by decide)
  rw [e3]
  decide

/-- C1: the known-answer vectors. Hashing the empty input yields
`8350e5a3e24c153df2275c9f80692773`, hashing `"abc"` yields
`da853b0d3f88d99b30283a69e6ded6bb`, and hashing `"hello world"` yields
`d9cce882ee690a5c1ce70beff3a78c77`. -/
theorem md2_C1 :
    md2 [] = [0x83, 0x50, 0xe5, 0xa3, 0xe2, 0x4c, 0x15, 0x3d,
              0xf2, 0x27, 0x5c, 0x9f, 0x80, 0x69, 0x27, 0x73]
    ∧ md2 [97, 98, 99]
        = [0xda, 0x85, 0x3b, 0x0d, 0x3f, 0x88, 0xd9, 0x9b,
           0x30, 0x28, 0x3a, 0x69, 0xe6, 0xde, 0xd6, 0xbb]
    ∧ md2 [104, 101, 108, 108, 111, 32, 119, 111, 114, 108, 100]
        = [0xd9, 0xcc, 0xe8, 0x82, 0xee, 0x69, 0x0a, 0x5c,
           0x1c, 0xe7, 0x0b, 0xef, 0xf3, 0xa7, 0x8c, 0x77] :=
  ⟨md2_kat_empty, md2_kat_abc, md2_kat_hello⟩

/-- C4: for every state and every remaining input of 0 to 15 bytes, finalize
builds a final block equal to the remaining input followed by `rem` copies of
the byte value `rem`, where `rem = 16 - |remaining|` lies in `1..16` (16
copies of the byte 16 when there is no leftover input); it compresses this
padding block, then compresses the resulting checksum as a block, and returns
the first 16 bytes of the working buffer. -/
theorem md2_C4 (st : Md2Core) (rest : List Nat) (h : rest.length ≤ 15) :
    (1 ≤ 16 - rest.length ∧ 16 - rest.length ≤ 16)
    ∧ finalize_fixed_core st rest
        = ((st.compress (specFinalBlock rest)).compress
            (st.compress (specFinalBlock rest)).checksum).x.take 16
    ∧ specFinalBlock ([] : List Nat) = List.replicate 16 16 := by
  refine ⟨⟨by omega, by omega⟩, ?_, by decide⟩
  have hblk : (rest ++ List.replicate (16 - rest.length) 0).take rest.length
      ++ List.replicate ((rest ++ List.replicate (16 - rest.length) 0).length - rest.length)
          (16 - rest.length) = specFinalBlock rest := by
    rw [specFinalBlock]
    congr 1
    · exact List.take_left ..
    · rw [List.length_append, List.length_replicate]
      congr 1
      omega
  dsimp only [finalize_fixed_core]
  rw [hblk]

/-- Witness for C4 at a concrete state and remainder. -/
theorem md2_C4_witness :
    ([1, 2, 3] : List Nat).length ≤ 15
    ∧ ((1 ≤ 16 - ([1, 2, 3] : List Nat).length ∧ 16 - ([1, 2, 3] : List Nat).length ≤ 16)
       ∧ finalize_fixed_core md2_default [1, 2, 3]
           = ((md2_default.compress (specFinalBlock [1, 2, 3])).compress
               (md2_default.compress (specFinalBlock [1, 2, 3])).checksum).x.take 16
       ∧ specFinalBlock ([] : List Nat) = List.replicate 16 16) :=
  ⟨by decide, md2_C4 md2_default [1, 2, 3] (by decide)⟩

/-- `splitBlocksAux` is independent of the fuel once the fuel covers the
message length. -/
theorem splitBlocksAux_congr :
    ∀ (f1 f2 : Nat) (m : List Nat), m.length ≤ f1 → m.length ≤ f2 →
      splitBlocksAux f1 m = splitBlocksAux f2 m := by
  intro f1
  induction f1 with
  | zero =>
    intro f2 m h1 _
    have hm : m = [] := List.eq_nil_of_length_eq_zero (by omega)
    subst hm
    cases f2 with
    | zero => rfl
    | succ g => simp [splitBlocksAux]
  | succ f ih =>
    intro f2 m h1 h2
    cases f2 with
    | zero =>
      have hm : m = [] := List.eq_nil_of_length_eq_zero (by omega)
      subst hm
      simp [splitBlocksAux]
    | succ g =>
      rw [splitBlocksAux, splitBlocksAux]
      by_cases hm : m.length < 16
      · rw [if_pos hm, if_pos hm]
      · rw [if_neg hm, if_neg hm,
          ih g (m.drop 16) (by simp only [List.length_drop]; omega)
            (by simp only [List.length_drop]; omega)]

/-- Unfolding `splitBlocks` on a message of at least one full block. -/
theorem splitBlocks_ge (m : List Nat) (h : 16 ≤ m.length) :
    splitBlocks m
      = (m.take 16 :: (splitBlocks (m.drop 16)).1, (splitBlocks (m.drop 16)).2) := by
  rw [splitBlocks, splitBlocks]
  cases hn : m.length with
  | zero => omega
  | succ k =>
    rw [splitBlocksAux, if_neg (by omega),
      splitBlocksAux_congr k (m.drop 16).length (m.drop 16)
        (by simp only [List.length_drop]; omega) (le_refl _)]

/-- Splitting a concatenation: the blocks of `m` come first, and the blocks
of the remainder of `m` followed by `d` continue the stream. -/
theorem splitBlocks_append (m d : List Nat) :
    splitBlocks (m ++ d)
      = ((splitBlocks m).1 ++ (splitBlocks ((splitBlocks m).2 ++ d)).1,
         (splitBlocks ((splitBlocks m).2 ++ d)).2) := by
  by_cases h : m.length < 16
  · rw [splitBlocks_of_lt m h]
    dsimp only [List.nil_append]
  · have h16 : 16 ≤ m.length := by omega
    have hmd : 16 ≤ (m ++ d).length := by rw [List.length_append]; omega
    rw [splitBlocks_ge m h16, splitBlocks_ge (m ++ d) hmd]
    rw [List.take_append_eq_append_take, Nat.sub_eq_zero_of_le h16,
      List.take_zero _, List.append_nil]
    rw [List.drop_append_eq_append_drop, Nat.sub_eq_zero_of_le h16, List.drop_zero _]
    rw [splitBlocks_append (m.drop 16) d, List.cons_append]
termination_by m.length
decreasing_by simp only [List.length_drop]; omega

/-- `update_blocks` splits over list concatenation. -/
theorem update_blocks_append (st : Md2Core) (a b : List (List Nat)) :
    update_blocks st (a ++ b) = update_blocks (update_blocks st a) b := by
  rw [update_blocks, update_blocks, update_blocks, List.foldl_append]

/-- One `update` call on an absorbed state absorbs the concatenation. -/
theorem update_absorbed (m d : List Nat) :
    Md2Buffered.update (absorbed m) d = absorbed (m ++ d) := by
  dsimp only [Md2Buffered.update, absorbed]
  rw [splitBlocks_append m d]
  rw [update_blocks_append]

/-- Folding `update` over a chunk list absorbs the flattened bytes. -/
theorem foldl_update_absorbed :
    ∀ (chunks : List (List Nat)) (m : List Nat),
      chunks.foldl Md2Buffered.update (absorbed m) = absorbed (m ++ chunks.flatten) := by
  intro chunks
  induction chunks with
  | nil => intro m; rw [List.foldl_nil, List.flatten_nil, List.append_nil]
  | cons c cs ih =>
    intro m
    rw [List.foldl_cons, update_absorbed, ih, List.flatten_cons, List.append_assoc]

/-- A fresh buffered hasher has absorbed the empty message. -/
theorem md2_start_eq : md2_start = absorbed [] := rfl

/-- C5: feeding any chunking of a message through the buffered update path
and finalizing yields the same digest as hashing the concatenation in one
call; and `update_blocks` is the sequential left fold of `compress` over the
blocks. -/
theorem md2_C5 :
    (∀ chunks : List (List Nat),
       (chunks.foldl Md2Buffered.update md2_start).finalize = md2 chunks.flatten)
    ∧ ∀ (st : Md2Core) (blocks : List (List Nat)),
        update_blocks st blocks = blocks.foldl Md2Core.compress st := by
  constructor
  · intro chunks
    rw [md2_start_eq, foldl_update_absorbed, List.nil_append]
    rfl
  · intro st blocks
    rfl

/-- Serialization followed by deserialization restores a well-formed state. -/
theorem deserialize_serialize (st : Md2Core)
    (hx : st.x.length = 48) (hc : st.checksum.length = 16) :
    deserialize (serialize st) = Except.ok st := by
  obtain ⟨xs, cs⟩ := st
  dsimp only at hx hc
  dsimp only [serialize]
  rw [deserialize, if_pos (by rw [List.length_append, hx, hc])]
  have h1 : (xs ++ cs).take 48 = xs := by rw [← hx]; exact List.take_left ..
  have h2 : (xs ++ cs).drop 48 = cs := by rw [← hx]; exact List.drop_left ..
  rw [h1, h2]

/-- C6: for every reachable core state (the fresh state after any sequence of
`compress` calls), deserializing its serialization succeeds with the same
state, so continuing with any remaining input and finalizing yields the same
digest as the original state would. -/
theorem md2_C6 (blocks : List (List Nat)) (rest : List Nat) :
    deserialize (serialize (update_blocks md2_default blocks))
        = Except.ok (update_blocks md2_default blocks)
    ∧ (deserialize (serialize (update_blocks md2_default blocks))).map
          (fun s => finalize_fixed_core s rest)
        = Except.ok (finalize_fixed_core (update_blocks md2_default blocks) rest) := by
  have hx : (update_blocks md2_default blocks).x.length = 48 := by
    rw [update_blocks_x_length]; decide
  have hc : (update_blocks md2_default blocks).checksum.length = 16 := by
    rw [update_blocks_checksum_length]; decide
  have hok := deserialize_serialize _ hx hc
  exact ⟨hok, by rw [hok]; rfl⟩

/-- C7: serialization is exactly 64 bytes, laid out as the 48-byte working
buffer followed by the 16-byte checksum, with no version tag and no internal
integrity data. -/
theorem md2_C7 (st : Md2Core) (hx : st.x.length = 48) (hc : st.checksum.length = 16) :
    (serialize st).length = 64
    ∧ serialize st = st.x ++ st.checksum
    ∧ (serialize st).take 48 = st.x
    ∧ (serialize st).drop 48 = st.checksum := by
  refine ⟨?_, rfl, ?_, ?_⟩
  · rw [serialize, List.length_append, hx, hc]
  · rw [serialize, ← hx]; exact List.take_left ..
  · rw [serialize, ← hx]; exact List.drop_left ..

/-- Witness for C7 at the freshly constructed state. -/
theorem md2_C7_witness :
    md2_default.x.length = 48 ∧ md2_default.checksum.length = 16
    ∧ ((serialize md2_default).length = 64
       ∧ serialize md2_default = md2_default.x ++ md2_default.checksum
       ∧ (serialize md2_default).take 48 = md2_default.x
       ∧ (serialize md2_default).drop 48 = md2_default.checksum) :=
  ⟨by decide, by decide, md2_C7 md2_default (by decide) (by decide)⟩

/-- C8: deserialization fails with the designated error exactly when the
input is not 64 bytes long, and succeeds on every 64-byte value with no
further validation. -/
theorem md2_C8 (b : List Nat) :
    (deserialize b = Except.error DeserializeStateError.invalidLength ↔ b.length ≠ 64)
    ∧ ((∃ st, deserialize b = Except.ok st) ↔ b.length = 64) := by
  constructor
  · rw [deserialize]
    split_ifs with h <;> simp [h]
  · rw [deserialize]
    split_ifs with h <;> simp [h]

/-- C9: `reset` returns the state to 48 zero working-buffer bytes and 16 zero
checksum bytes — the freshly constructed state — so hashing any input after a
reset gives the same digest as a fresh instance. -/
theorem md2_C9 (st : Md2Core) :
    st.reset = md2_default
    ∧ (st.reset).x = List.replicate 48 0
    ∧ (st.reset).checksum = List.replicate 16 0
    ∧ ∀ msg : List Nat, md2From st.reset msg = md2 msg :=
  ⟨rfl, rfl, rfl, fun _ => rfl⟩

/-- C10: deserialization followed by serialization is the identity on every
64-byte snapshot, whether or not it was produced by `serialize`. -/
theorem md2_C10 (b : List Nat) (h : b.length = 64) :
    (deserialize b).map serialize = Except.ok b := by
  rw [deserialize, if_pos h]
  show Except.ok (serialize ⟨b.take 48, b.drop 48⟩) = Except.ok b
  rw [serialize]
  dsimp only
  rw [List.take_append_drop]

/-- Witness for C10 at a concrete 64-byte snapshot. -/
theorem md2_C10_witness :
    (List.replicate 64 7).length = 64
    ∧ (deserialize (List.replicate 64 7)).map serialize
        = Except.ok (List.replicate 64 7) :=
  ⟨by decide, md2_C10 (List.replicate 64 7) (by decide)⟩
